import Mathlib

/-!
Verification of the wp-to-mdx content pipeline: a shallow embedding of the
HTML→Markdown converter helpers, the shortcode post-processor
(`PostProcessMarkdownLines`, `parseGalleryIDs`), the recursive
`[youtube]…[/youtube]` pass (`processYouTubeShortcodes`,
`extractYouTubeVideoID`), the `<figure>`/image conversion rules and the
frontmatter generator (`GenerateFrontmatter`).

Go strings are modelled as `List Char` (the inputs of interest are ASCII, so
byte indices and rune indices coincide); the `sqlx` gallery lookup is an
injected function `List Int → List (List Char)`; the base URL (environment
variable `WP_BASE_URL`) is an explicit parameter.  Fallible operations
return `Option`.
-/

namespace WpToMdx

/-- Go `unicode.IsSpace` on the Latin-1 range: space, \t, \n, \v, \f, \r,
U+0085, U+00A0.  (Further Unicode space runes are not modelled; all inputs
considered here are ASCII.) -/
def goIsSpace (c : Char) : Bool :=
  c = ' ' || c = '\t' || c = '\n' || c.toNat = 11 || c.toNat = 12 || c = '\r' ||
    c.toNat = 0x85 || c.toNat = 0xA0

/-- The character class `\s` of Go's regexp package: `[\t\n\f\r ]`. -/
def reSpace (c : Char) : Bool :=
  c = '\t' || c = '\n' || c.toNat = 12 || c = '\r' || c = ' '

/-- Go `strings.TrimSpace`. -/
def goTrimSpace (s : List Char) : List Char :=
  ((s.dropWhile goIsSpace).reverse.dropWhile goIsSpace).reverse

/-- Go `strings.ReplaceAll s old new` (all our patterns are nonempty, so the
empty-pattern rune-insertion behaviour of Go is irrelevant and the guard
`old ≠ []` only serves termination).  Scans left to right, replacing
non-overlapping occurrences and never rescanning the replacement. -/
def replaceAllAux (old new : List Char) : Nat → List Char → List Char
  | _, [] => []
  | 0, s => s
  | n + 1, c :: rest =>
    if old ≠ [] ∧ old.isPrefixOf (c :: rest) then
      new ++ replaceAllAux old new n ((c :: rest).drop old.length)
    else
      c :: replaceAllAux old new n rest

/-- Entry point: the fuel `s.length` is enough because every step of the
scan consumes at least one character (`old` is nonempty at every call
site), so the `0, s => s` fallback is never reached. -/
def replaceAll (old new s : List Char) : List Char :=
  replaceAllAux old new s.length s

/-- Go `strings.Index s pat`: index of the first occurrence of `pat`,
`none` for Go's `-1`. -/
def indexOfSub (pat : List Char) : List Char → Option Nat
  | [] => if pat.isPrefixOf ([] : List Char) then some 0 else none
  | c :: t =>
    if pat.isPrefixOf (c :: t) then some 0
    else (indexOfSub pat t).map (· + 1)

/-- Go `strings.Contains s pat`. -/
def goContains (pat : List Char) : List Char → Bool
  | [] => pat.isEmpty
  | c :: t => pat.isPrefixOf (c :: t) || goContains pat t

/-- Go `strings.HasPrefix s pre` is `pre.isPrefixOf s`;
Go `strings.TrimPrefix s pre`. -/
def goTrimPrefix (s pre : List Char) : List Char :=
  if pre.isPrefixOf s then s.drop pre.length else s

/-- Go `strings.Split s sep` for a single-character separator (used with
"\n" and ","). -/
def splitOnChar (sep : Char) : List Char → List (List Char)
  | [] => [[]]
  | c :: t =>
    match splitOnChar sep t with
    | [] => [[]]
    | h :: r => if c = sep then [] :: h :: r else (c :: h) :: r

/-- Go `strings.Join parts sep`. -/
def goJoin (sep : List Char) : List (List Char) → List Char
  | [] => []
  | [x] => x
  | x :: y :: r => x ++ sep ++ goJoin sep (y :: r)

theorem indexOfSub_nil_of_ne (pat : List Char) (h : pat ≠ []) :
    indexOfSub pat [] = none := by
  cases pat with
  | nil => exact absurd rfl h
  | cons a as => simp [indexOfSub, List.isPrefixOf]

def splitOnSubAux (sep : List Char) : Nat → List Char → List (List Char)
  | 0, s => [s]
  | n + 1, s =>
    match indexOfSub sep s with
    | none => [s]
    | some i => s.take i :: splitOnSubAux sep n (s.drop (i + sep.length))

/-- Go `strings.Split s sep` for a general nonempty separator (the
empty-separator branch mirrors Go's split-into-runes but is never used).
The fuel `s.length` is enough: each found separator occurrence consumes at
least `sep.length ≥ 1` characters, and a nonempty `sep` never occurs in the
empty remainder, so the fuel never runs out before the `none` branch. -/
def splitOnSub (sep : List Char) (s : List Char) : List (List Char) :=
  if sep = [] then s.map (fun c => [c]) else splitOnSubAux sep s.length s

/-- Go `strings.SplitN line " " 2`: the first token and, when a space
occurs, the remainder after the first space. -/
def goSplitN2 (s : List Char) : List Char × Option (List Char) :=
  match indexOfSub [' '] s with
  | none => (s, none)
  | some i => (s.take i, some (s.drop (i + 1)))

/-- Consume a literal: `some rest` iff `lit` is a prefix of `s`. -/
def expectLit (lit s : List Char) : Option (List Char) :=
  if lit.isPrefixOf s then some (s.drop lit.length) else none

/-- Consume a nonempty maximal run of characters satisfying `p` (the regexp
quantifier `X+` for a class `X`, in the positions where this code uses it the
following literal's first character is outside the class, so the greedy
maximal run is the only possible match). -/
def takeRun1 (p : Char → Bool) (s : List Char) : Option (List Char × List Char) :=
  let run := s.takeWhile p
  if run.isEmpty then none else some (run, s.drop run.length)

/-- Match of Go regexp `\[audio\s+mp3="([^"]+)"\]\s*\[/audio\]` anchored at
the start of `s`, returning the capture group.  Every quantifier stop is
forced by the following literal, so the match at a position is unique. -/
def matchAudioAt (s : List Char) : Option (List Char) := do
  let r1 ← expectLit (("[audio").data) s
  let (_, r2) ← takeRun1 reSpace r1
  let r3 ← expectLit (("mp3=\"").data) r2
  let (cap, r4) ← takeRun1 (fun c => c ≠ '"') r3
  let r5 ← expectLit (("\"]").data) r4
  let r6 := r5.drop (r5.takeWhile reSpace).length
  let _ ← expectLit (("[/audio]").data) r6
  pure cap

/-- Go `audioRe.FindStringSubmatch line`: the capture of the leftmost match
of `\[audio\s+mp3="([^"]+)"\]\s*\[/audio\]`, if any. -/
def audioSubmatch : List Char → Option (List Char)
  | [] => none
  | c :: t =>
    match matchAudioAt (c :: t) with
    | some cap => some cap
    | none => audioSubmatch t

/-- Match of `\[video\s+width="(\d+)"\s+height="(\d+)"\s+mp4="([^"]+)"\]\s*\[/video\]`
anchored at the start of `s`, returning the three captures. -/
def matchVideoAt (s : List Char) : Option (List Char × List Char × List Char) := do
  let r1 ← expectLit (("[video").data) s
  let (_, r2) ← takeRun1 reSpace r1
  let r3 ← expectLit (("width=\"").data) r2
  let (w, r4) ← takeRun1 Char.isDigit r3
  let r5 ← expectLit (("\"").data) r4
  let (_, r6) ← takeRun1 reSpace r5
  let r7 ← expectLit (("height=\"").data) r6
  let (ht, r8) ← takeRun1 Char.isDigit r7
  let r9 ← expectLit (("\"").data) r8
  let (_, r10) ← takeRun1 reSpace r9
  let r11 ← expectLit (("mp4=\"").data) r10
  let (src, r12) ← takeRun1 (fun c => c ≠ '"') r11
  let r13 ← expectLit (("\"]").data) r12
  let r14 := r13.drop (r13.takeWhile reSpace).length
  let _ ← expectLit (("[/video]").data) r14
  pure (w, ht, src)

/-- Go `videoRe.FindStringSubmatch line`: captures of the leftmost match. -/
def videoSubmatch : List Char → Option (List Char × List Char × List Char)
  | [] => none
  | c :: t =>
    match matchVideoAt (c :: t) with
    | some r => some r
    | none => videoSubmatch t

/-- The fragment `ids="([^"]+)"` anchored at the start of `s`: the capture
and the rest. -/
def matchIdsAt (s : List Char) : Option (List Char × List Char) := do
  let r1 ← expectLit (("ids=\"").data) s
  let (cap, r2) ← takeRun1 (fun c => c ≠ '"') r1
  let r3 ← expectLit (("\"").data) r2
  pure (cap, r3)

/-- Go `regexp.MustCompile "ids=\"([^\"]+)\"" |>.FindStringSubmatch`: capture
of the leftmost occurrence of `ids="…"`. -/
def findIdsCapture : List Char → Option (List Char)
  | [] => none
  | c :: t =>
    match matchIdsAt (c :: t) with
    | some (cap, _) => some cap
    | none => findIdsCapture t

/-- Scan for `target` over the regexp class `.` (any character but `\n`):
true iff `target` occurs before any newline.  Implements the `.*?\]` tail of
the gallery pattern. -/
def scanForChar (target : Char) : List Char → Bool
  | [] => false
  | c :: t => if c = target then true else if c = '\n' then false else scanForChar target t

/-- The `.*?ids="([^"]+)".*?\]` tail of the gallery pattern: scanning over
`.` (no newline), find an `ids="…"` fragment followed (over `.`) by `]`. -/
def galleryIdsScan : List Char → Bool
  | [] => false
  | c :: t =>
    if c = '\n' then false
    else
      match matchIdsAt (c :: t) with
      | some (_, rest) => scanForChar ']' rest || galleryIdsScan t
      | none => galleryIdsScan t

/-- Match of `\[gallery\s+.*?ids="[^"]+".*?\]` anchored at the start of `s`.
`\s+` may absorb newlines while `.*?` may not, so after `[gallery` at least
one `\s` character is required, the maximal `\s` run is skipped (any of its
characters that `.*?` could have consumed instead are newline-free members
of `\s`, so skipping the whole run preserves exactly the matchable strings),
and the scan continues newline-free. -/
def galleryMatchAt (s : List Char) : Bool :=
  match expectLit (("[gallery").data) s with
  | none => false
  | some r1 =>
    match takeRun1 reSpace r1 with
    | none => false
    | some (_, r2) => galleryIdsScan r2

/-- Go `galleryRe.MatchString line` for
`\[gallery\s+.*?ids="[^"]+".*?\]` (unanchored search). -/
def galleryMatch : List Char → Bool
  | [] => false
  | c :: t => galleryMatchAt (c :: t) || galleryMatch t

/-- Digits-only numeral, the core of Go `strconv.Atoi`: `some` iff the
string is a nonempty run of decimal digits (integer-range overflow is not
modelled; all inputs considered are small). -/
def digitsToNat? (s : List Char) : Option Nat :=
  if !s.isEmpty && s.all Char.isDigit then
    some (s.foldl (fun a c => a * 10 + (c.toNat - ('0').toNat)) 0)
  else none

/-- Go `strconv.Atoi`: optional sign followed by decimal digits. -/
def goAtoi (s : List Char) : Option Int :=
  match s with
  | '+' :: rest => (digitsToNat? rest).map Int.ofNat
  | '-' :: rest => (digitsToNat? rest).map fun n => -(n : Int)
  | _ => (digitsToNat? s).map Int.ofNat

/-- Source `parseGalleryIDs` (postprocessing.go): extract the `ids="…"`
capture, split on commas, trim each part and parse it as an integer; `none`
models the two error returns (no `ids` attribute / an invalid id). -/
def parseGalleryIDs (content : List Char) : Option (List Int) :=
  match findIdsCapture content with
  | none => none
  | some cap => (splitOnChar ',' cap).mapM fun p => goAtoi (goTrimSpace p)

/-- The literal `\[` (an escaped bracket in the converter's output). -/
def escL : List Char := ("\\[").data

/-- The literal `\]`. -/
def escR : List Char := ("\\]").data

/-- The per-line normalisation of `PostProcessMarkdownLines`:
`line = strings.TrimSpace(line)` then unescape `\[` and `\]`. -/
def normLine (orig : List Char) : List Char :=
  replaceAll escR (("]").data) (replaceAll escL (("[").data) (goTrimSpace orig))

/-- Target of the three YouTube-URL collapses. -/
def ytShort : List Char := ("https://youtu.be/").data

/-- The collapse of the first whitespace-delimited token:
`watch?v=`, `www.youtube.com/` and `youtube.com/` variants all become
`https://youtu.be/` (in this exact substitution order). -/
def ytCollapse (link : List Char) : List Char :=
  replaceAll (("https://youtube.com/").data) ytShort
    (replaceAll (("https://www.youtube.com/").data) ytShort
      (replaceAll (("https://www.youtube.com/watch?v=").data) ytShort link))

/-- The prefix tested by `strings.HasPrefix(link, "https://youtu.be")`. -/
def ytShortPre : List Char := ("https://youtu.be").data

/-- Go `rest := ""; if len(parts) > 1 { rest = " " + parts[1] }`: the
trailing text of the line, with its separating space restored. -/
def restOf (p : Option (List Char)) : List Char :=
  match p with
  | none => []
  | some r => ' ' :: r

/-- `fmt.Sprintf("<YouTube id=\"%s\" />%s", link, rest)`. -/
def ytLineFmt (link rest : List Char) : List Char :=
  ("<YouTube id=\"").data ++ link ++ ("\" />").data ++ rest

/-- The audio embed emitted by the audio-shortcode branch (verbatim Go
template with the display path substituted). -/
def audioEmbed (rel : List Char) : List Char :=
  ("<audio controls>\n    <source src=\"").data ++ rel ++
    ("\" type=\"audio/mpeg\"/>\n    Your browser does not support the audio element.\n</audio>").data

/-- The video embed emitted by the video-shortcode branch. -/
def videoEmbed (w ht rel : List Char) : List Char :=
  ("<video controls width=\"").data ++ w ++ ("\" height=\"").data ++ ht ++
    ("\">\n    <source src=\"").data ++ rel ++
    ("\" type=\"video/mp4\"/>\n    Your browser does not support the video tag.\n</video>").data

/-- One gallery image line: `fmt.Sprintf("<img src=\"%s\"/>\n\n", relativePath)`. -/
def galleryImg (base u : List Char) : List Char :=
  ("<img src=\"").data ++ goTrimPrefix u base ++ ("\"/>\n\n").data

/-- Result of processing one line: the new content of `splittedMd[i]` and
the URLs appended to `mediaURLs` while processing the line. -/
structure LineOut where
  text : List Char
  media : List (List Char)
deriving DecidableEq, Repr

/-- The audio then video checks at the end of the loop body (the audio
branch `continue`s past the video check).  `dflt` is the current value of
`splittedMd[i]`, `media0` the URLs queued earlier in this iteration. -/
def audioVideoStage (base line dflt : List Char) (media0 : List (List Char)) : LineOut :=
  match audioSubmatch line with
  | some src => ⟨audioEmbed (goTrimPrefix src base), media0 ++ [src]⟩
  | none =>
    match videoSubmatch line with
    | some (w, ht, src) => ⟨videoEmbed w ht (goTrimPrefix src base), media0 ++ [src]⟩
    | none => ⟨dflt, media0⟩

/-- One iteration of the loop of `PostProcessMarkdownLines` over line
`orig`: trim/unescape, the bare-YouTube-link rewrite of the first token,
the gallery branch (a parse error `continue`s, leaving the line as set so
far), then the audio/video shortcode branches.  `db` is the injected
`GetImageURLsFromDB` lookup (its error return is discarded by the source). -/
def processLine (base : List Char) (db : List Int → List (List Char)) (orig : List Char) :
    LineOut :=
  let line := normLine orig
  let p := goSplitN2 line
  let link := ytCollapse p.1
  let rest := restOf p.2
  let s0 := if ytShortPre.isPrefixOf link then ytLineFmt link rest else orig
  if galleryMatch line then
    match parseGalleryIDs line with
    | none => ⟨s0, []⟩
    | some ids =>
      let urls := db ids
      audioVideoStage base line ((urls.map (galleryImg base)).flatten) urls
  else
    audioVideoStage base line s0 []

/-- The substring keying the YouTube import. -/
def ytNeedle : List Char := ("<YouTube id=").data

/-- The substring keying the image import. -/
def imgNeedle : List Char := ("<Image").data

/-- The YouTube import line, with the `\n\n` of the Sprintf. -/
def ytImportPrefix : List Char :=
  ("import { YouTube } from 'astro-embed';\n\n").data

/-- The image import line, with the `\n\n` of the Sprintf. -/
def imgImportPrefix : List Char :=
  ("import { Image } from 'astro:assets';\n\n").data

/-- The document-level pass of `PostProcessMarkdownLines`: prepend the
YouTube import if `<YouTube id=` occurs, then the image import if `<Image`
occurs (tested on the possibly already-prefixed text). -/
def addImports (m : List Char) : List Char :=
  let m1 := if goContains ytNeedle m then ytImportPrefix ++ m else m
  if goContains imgNeedle m1 then imgImportPrefix ++ m1 else m1

/-- Source `PostProcessMarkdownLines` (postprocessing.go): split on
newlines, process each line, rejoin, prepend import lines.  Returns the
final markdown and the queued `mediaURLs`. -/
def PostProcessMarkdownLines (base : List Char) (db : List Int → List (List Char))
    (markdown : List Char) : List Char × List (List Char) :=
  let outs := (splitOnChar '\n' markdown).map (processLine base db)
  let joined := goJoin ['\n'] (outs.map LineOut.text)
  (addImports joined, (outs.map LineOut.media).flatten)

/-- Source `extractYouTubeVideoID` (markdown.go): video id from the
`youtu.be/` form (trimmed at the first `?` and `&`) or the
`youtube.com/watch?v=` form (split at `v=`, trimmed at the first `&`);
empty when neither applies. -/
def extractYouTubeVideoID (url : List Char) : List Char :=
  let beParts := splitOnSub (("youtu.be/").data) url
  if goContains (("youtu.be/").data) url ∧ 1 < beParts.length then
    (splitOnSub (("&").data)
      ((splitOnSub (("?").data) (beParts.getD 1 [])).headD [])).headD []
  else
    let vParts := splitOnSub (("v=").data) url
    if goContains (("youtube.com/watch?v=").data) url ∧ 1 < vParts.length then
      (splitOnSub (("&").data) (vParts.getD 1 [])).headD []
    else []

/-- `startTag`: the escaped `\[youtube\]` searched by the shortcode loop. -/
def ytStartTag : List Char := ("\\[youtube\\]").data

/-- `endTag`: the escaped `\[/youtube\]`. -/
def ytEndTag : List Char := ("\\[/youtube\\]").data

/-- Source `processYouTubeShortcodes` (markdown.go), with explicit fuel:
the Go `for` loop has no built-in bound, so `none` means the loop has not
exited within `fuel` iterations.  Each iteration finds the first start tag,
the first end tag at or after it, extracts the URL and splices in either a
YouTube embed or — when no video id can be extracted — the original span
unchanged, then restarts the search from the beginning of the text. -/
def processYouTubeShortcodesF : Nat → List Char → Option (List Char)
  | 0, _ => none
  | n + 1, result =>
    match indexOfSub ytStartTag result with
    | none => some result
    | some si =>
      match indexOfSub ytEndTag (result.drop si) with
      | none => some result
      | some ei0 =>
        let ei := ei0 + si
        let url := (result.take ei).drop (si + ytStartTag.length)
        let vid := extractYouTubeVideoID url
        let replacement :=
          if vid ≠ [] then
            ("\n\n<YouTube id=\"https://youtu.be/").data ++ vid ++ ("\" />\n\n").data
          else (result.take (ei + ytEndTag.length)).drop si
        processYouTubeShortcodesF n
          (result.take si ++ replacement ++ result.drop (ei + ytEndTag.length))

/-- A parsed HTML node, the view the goquery-based conversion rules see:
an element with its attributes and child nodes, or a text node. -/
inductive HNode where
  | elem (tag : List Char) (attrs : List (List Char × List Char)) (children : List HNode)
  | text (s : List Char)

/-- `selec.Children()`: the element children (text nodes are not part of a
goquery `Children()` selection). -/
def HNode.elemChildren : HNode → List HNode
  | .elem _ _ cs => cs.filter fun c => match c with | .elem _ _ _ => true | .text _ => false
  | .text _ => []

/-- The tag a one-element selection `Is` compared against. -/
def HNode.tagOf : HNode → List Char
  | .elem t _ _ => t
  | .text _ => []

/-- `selec.Attr name`: the attribute's value if present. -/
def HNode.attr (name : List Char) : HNode → Option (List Char)
  | .elem _ attrs _ => (attrs.find? fun a => a.1 = name).map (·.2)
  | .text _ => none

mutual

/-- `selec.Text()`: the concatenated text of all descendant text nodes. -/
def HNode.textOf : HNode → List Char
  | .text s => s
  | .elem _ _ cs => textOfList cs

/-- Concatenated text of a list of nodes. -/
def textOfList : List HNode → List Char
  | [] => []
  | n :: r => n.textOf ++ textOfList r

end

/-- The audio-figure template
`"\n\n<audio controls src=\"/%s\"></audio>\n\n"` (note the literal `/`
prepended to the already base-stripped path). -/
def figAudioTmpl (rel : List Char) : List Char :=
  ("\n\n<audio controls src=\"/").data ++ rel ++ ("\"></audio>\n\n").data

/-- The figure YouTube template `"\n\n<YouTube id=\"%s\" />\n\n%s\n\n"`. -/
def figYtTmpl (vid caption : List Char) : List Char :=
  ("\n\n<YouTube id=\"").data ++ vid ++ ("\" />\n\n").data ++ caption ++ ("\n\n").data

/-- The linked-image figure template
`"\n\n<img src=\"/%s\" alt=\"%s\" />\n\n"` (again with a literal `/`
prepended to the base-stripped path). -/
def figImgTmpl (rel alt : List Char) : List Char :=
  ("\n\n<img src=\"/").data ++ rel ++ ("\" alt=\"").data ++ alt ++ ("\" />\n\n").data

/-- The video-id extraction inlined in the figure rule: `youtu.be/` split
(trimmed at `?` then `&`), else `youtube.com/watch?v=` split at `v=`
(trimmed at `&`), else empty. -/
def figVideoID (divText : List Char) : List Char :=
  if goContains (("youtu.be/").data) divText then
    let parts := splitOnSub (("youtu.be/").data) divText
    if 1 < parts.length then
      (splitOnSub (("&").data)
        ((splitOnSub (("?").data) (parts.getD 1 [])).headD [])).headD []
    else []
  else if goContains (("youtube.com/watch?v=").data) divText then
    let parts := splitOnSub (("v=").data) divText
    if 1 < parts.length then (splitOnSub (("&").data) (parts.getD 1 [])).headD [] else []
  else []

/-- The audio check of the figure rule: exactly one element child, an
`<audio>` with a `src` attribute. -/
def figureAudioCase (base : List Char) (cs : List HNode) :
    Option (List Char × List (List Char)) :=
  if cs.length = 1 ∧ (cs.headD (.text [])).tagOf = ("audio").data then
    match (cs.headD (.text [])).attr (("src").data) with
    | some src => some (figAudioTmpl (goTrimPrefix src base), [src])
    | none => none
  else none

/-- The YouTube check of the figure rule: exactly two element children, a
`<div>` whose trimmed text contains a YouTube URL and a `<figcaption>`. -/
def figureYtCase (cs : List HNode) : Option (List Char × List (List Char)) :=
  if cs.length = 2 then
    let d := cs.headD (.text [])
    let f := cs.getLastD (.text [])
    if d.tagOf = ("div").data ∧ f.tagOf = ("figcaption").data then
      let divText := goTrimSpace d.textOf
      let captionText := goTrimSpace f.textOf
      if goContains (("youtu.be").data) divText || goContains (("youtube.com").data) divText then
        let vid := figVideoID divText
        if vid ≠ [] then some (figYtTmpl vid captionText, []) else none
      else none
    else none
  else none

/-- The linked-thumbnail check of the figure rule: exactly one element
child, an `<a>`; its href (default empty) is queued, its text (default
`Image`) becomes the alt text. -/
def figureAnchorCase (base : List Char) (cs : List HNode) :
    Option (List Char × List (List Char)) :=
  if cs.length = 1 ∧ (cs.headD (.text [])).tagOf = ("a").data then
    let a := cs.headD (.text [])
    let href := (a.attr (("href").data)).getD []
    let alt0 := a.textOf
    let alt := if alt0 = [] then ("Image").data else alt0
    some (figImgTmpl (goTrimPrefix href base) alt, [href])
  else none

/-- The `figure` rule of `ConvertHTMLToMarkdown` (markdown.go): the three
checks in source order, first success wins; `none` defers to the generic
converter.  The second component is the list of URLs appended to
`imageURLs`. -/
def figureRule (base : List Char) (fig : HNode) : Option (List Char × List (List Char)) :=
  let cs := fig.elemChildren
  match figureAudioCase base cs with
  | some r => some r
  | none =>
    match figureYtCase cs with
    | some r => some r
    | none => figureAnchorCase base cs

/-- The single-image block rule of `ConvertHTMLToMarkdown` for
`p`/`span`/`h1`–`h6` nodes: the only child is an `<img>`; its `src` is
queued absolute and displayed base-stripped. -/
def imgRule (base : List Char) (node : HNode) : Option (List Char × List (List Char)) :=
  let cs := node.elemChildren
  if cs.length = 1 ∧ (cs.headD (.text [])).tagOf = ("img").data then
    let img := cs.headD (.text [])
    let src := (img.attr (("src").data)).getD []
    let alt := (img.attr (("alt").data)).getD []
    some ((("\n\n<img src=\"").data) ++ goTrimPrefix src base ++ (("\" alt=\"").data) ++ alt
      ++ (("\" />\n\n").data), [src])
  else none

/-- A Go `time.Time` restricted to its date components; the zero value is
January 1 of year 1. -/
structure GoTime where
  year : Nat
  month : Nat
  day : Nat
deriving DecidableEq, Repr

/-- Go `Time.IsZero` (at date granularity). -/
def GoTime.isZero (t : GoTime) : Bool :=
  t.year == 1 && t.month == 1 && t.day == 1

/-- Decimal digits of `n` left-padded with zeros to `width`, as Go's
`appendInt` does for the `2006`, `01` and `02` layout verbs. -/
def padNat (width n : Nat) : List Char :=
  let ds := Nat.toDigits 10 n
  List.replicate (width - ds.length) '0' ++ ds

/-- Go `t.Format("2006-01-02")`. -/
def formatISO (t : GoTime) : List Char :=
  padNat 4 t.year ++ ('-' :: padNat 2 t.month) ++ ('-' :: padNat 2 t.day)

/-- Go strconv's `lowerhex` digit table. -/
def lowerhex : List Char := ("0123456789abcdef").data

/-- Lower-case hex digit, by indexing the digit table as Go strconv does. -/
def hexDigit (n : Nat) : Char := lowerhex.getD n '0'

/-- Go `strconv.Quote` for one character: escape the quote and backslash,
keep printable ASCII, use the standard short escapes for control
characters, hex-escape other ASCII control bytes.  (Go additionally
escapes non-printable runes above 0x7F; those are kept verbatim here — all
inputs considered are ASCII.) -/
def goQuoteChar (c : Char) : List Char :=
  if c = '"' then ['\\', '"']
  else if c = '\\' then ['\\', '\\']
  else if 0x20 ≤ c.toNat ∧ c.toNat ≤ 0x7E then [c]
  else if c = '\n' then ['\\', 'n']
  else if c = '\t' then ['\\', 't']
  else if c = '\r' then ['\\', 'r']
  else if c.toNat = 7 then ['\\', 'a']
  else if c.toNat = 8 then ['\\', 'b']
  else if c.toNat = 11 then ['\\', 'v']
  else if c.toNat = 12 then ['\\', 'f']
  else if c.toNat < 0x80 then ['\\', 'x', hexDigit (c.toNat / 16), hexDigit (c.toNat % 16)]
  else [c]

/-- Go `strconv.Quote`. -/
def goQuote (s : List Char) : List Char :=
  '"' :: (s.map goQuoteChar).flatten ++ ['"']

/-- The tags array of the frontmatter: a JSON-style list of quoted tags,
`[]` when there are none. -/
def tagsJSONOf (tags : List (List Char)) : List Char :=
  if tags.length > 0 then ('[' :: goJoin ((", ").data) (tags.map goQuote)) ++ [']']
  else ("[]").data

/-- The metadata of a post that `GenerateFrontmatter` reads. -/
structure Post where
  title : List Char
  tags : List (List Char)
  featuredImage : List Char

/-- Source `GenerateFrontmatter` (markdown.go): the fixed Sprintf skeleton
`---\ntitle: %s\nexcerpt: ""\npublishDate: %s\n%sisFeatured: false\ntags: %s\n%sseo: {}\n---\n\n`
with the optional updated-date and featured-image lines spliced in. -/
def GenerateFrontmatter (post : Post) (publishDate updatedDate : GoTime) : List Char :=
  let upd :=
    if updatedDate.isZero then []
    else ("updatedDate: ").data ++ goQuote (formatISO updatedDate) ++ ['\n']
  let feat :=
    if post.featuredImage = [] then []
    else ("featuredImage: ").data ++ goQuote post.featuredImage ++ ['\n']
  ("---\ntitle: ").data ++ goQuote post.title ++ ("\nexcerpt: \"\"\npublishDate: ").data ++
    goQuote (formatISO publishDate) ++ ('\n' :: upd) ++ ("isFeatured: false\ntags: ").data ++
    tagsJSONOf post.tags ++ ('\n' :: feat) ++ ("seo: {}\n---\n\n").data

/-- A line the per-line pass leaves alone: the first token does not collapse
to a `https://youtu.be` link and no gallery/audio/video pattern matches. -/
def lineInert (orig : List Char) : Bool :=
  !(ytShortPre.isPrefixOf (ytCollapse (goSplitN2 (normLine orig)).1)) &&
    !(galleryMatch (normLine orig)) && (audioSubmatch (normLine orig)).isNone &&
    (videoSubmatch (normLine orig)).isNone

theorem processLine_inert (base : List Char) (db : List Int → List (List Char))
    (orig : List Char) (h : lineInert orig = true) : processLine base db orig = ⟨orig, []⟩ := by
  unfold lineInert at h
  simp only [Bool.and_eq_true, Bool.not_eq_true', Option.isNone_iff_eq_none] at h
  obtain ⟨⟨⟨h1, h2⟩, h3⟩, h4⟩ := h
  unfold processLine audioVideoStage
  simp only [h1, h2, h3, h4, Bool.false_eq_true, if_false]

theorem splitOnChar_ne_nil (sep : Char) (s : List Char) : splitOnChar sep s ≠ [] := by
  induction s with
  | nil => simp [splitOnChar]
  | cons c t ih =>
    simp only [splitOnChar]
    cases hsp : splitOnChar sep t with
    | nil => exact absurd hsp ih
    | cons h r => by_cases hc : c = sep <;> simp [hc]

theorem goJoin_splitOnChar (sep : Char) (s : List Char) :
    goJoin [sep] (splitOnChar sep s) = s := by
  induction s with
  | nil => rfl
  | cons c t ih =>
    simp only [splitOnChar]
    cases hsp : splitOnChar sep t with
    | nil => exact absurd hsp (splitOnChar_ne_nil sep t)
    | cons hd r =>
      rw [hsp] at ih
      by_cases hc : c = sep
      · subst hc
        simp only [if_pos rfl, goJoin]
        rw [ih]
        rfl
      · simp only [if_neg hc]
        cases r with
        | nil =>
          simp only [goJoin] at ih ⊢
          rw [ih]
        | cons y r' =>
          simp only [goJoin] at ih ⊢
          rw [← ih]
          simp

theorem pp_inert (base : List Char) (db : List Int → List (List Char)) (t : List Char)
    (h : ∀ l ∈ splitOnChar '\n' t, lineInert l = true) :
    PostProcessMarkdownLines base db t = (addImports t, []) := by
  unfold PostProcessMarkdownLines
  have hmap : (splitOnChar '\n' t).map (processLine base db) =
      (splitOnChar '\n' t).map (fun l => ⟨l, []⟩) :=
    List.map_congr_left fun l hl => processLine_inert base db l (h l hl)
  rw [hmap]
  simp only [List.map_map, Function.comp_def]
  have htext : ((splitOnChar '\n' t).map fun l => LineOut.text ⟨l, []⟩) = splitOnChar '\n' t := by
    simp
  have hmedia : (((splitOnChar '\n' t).map fun l => LineOut.media ⟨l, []⟩)).flatten =
      ([] : List (List Char)) := by
    simp
  rw [htext, hmedia, goJoin_splitOnChar]

theorem goContains_append_of_head_not_mem (p a b : List Char) (c : Char)
    (hp : p.head? = some c) (hc : c ∉ a) :
    goContains p (a ++ b) = goContains p b := by
  obtain ⟨p', rfl⟩ : ∃ p', p = c :: p' := by
    cases p with
    | nil => exact absurd hp (by simp)
    | cons x t =>
      simp only [List.head?_cons, Option.some.injEq] at hp
      exact ⟨t, by rw [hp]⟩
  induction a with
  | nil => rfl
  | cons x t ih =>
    have hx : c ≠ x := fun hcx => hc (hcx ▸ List.mem_cons_self x t)
    simp only [List.cons_append, goContains, List.append_eq]
    rw [ih (fun hm => hc (List.mem_cons_of_mem x hm))]
    have hpre : (c :: p').isPrefixOf (x :: (t ++ b)) = false := by
      simp only [List.isPrefixOf, Bool.and_eq_false_iff]
      left
      simpa using hx
    rw [hpre]
    simp

theorem addImports_eq (m : List Char) :
    addImports m = (if goContains imgNeedle m then imgImportPrefix else []) ++
      (if goContains ytNeedle m then ytImportPrefix else []) ++ m := by
  unfold addImports
  by_cases hy : goContains ytNeedle m
  · have hyt : goContains imgNeedle (ytImportPrefix ++ m) = goContains imgNeedle m :=
      goContains_append_of_head_not_mem imgNeedle ytImportPrefix m '<' (by decide) (by decide)
    simp only [hy, if_true, hyt]
    by_cases hi : goContains imgNeedle m <;> simp [hi]
  · simp only [hy, Bool.false_eq_true, if_false]
    by_cases hi : goContains imgNeedle m <;> simp [hi]

theorem processLine_audio (base : List Char) (db : List Int → List (List Char))
    (orig src : List Char) (hg : galleryMatch (normLine orig) = false)
    (ha : audioSubmatch (normLine orig) = some src) :
    processLine base db orig = ⟨audioEmbed (goTrimPrefix src base), [src]⟩ := by
  unfold processLine audioVideoStage
  simp only [hg, ha, Bool.false_eq_true, if_false, List.nil_append]

theorem processLine_video (base : List Char) (db : List Int → List (List Char))
    (orig w ht src : List Char) (hg : galleryMatch (normLine orig) = false)
    (ha : audioSubmatch (normLine orig) = none)
    (hv : videoSubmatch (normLine orig) = some (w, ht, src)) :
    processLine base db orig = ⟨videoEmbed w ht (goTrimPrefix src base), [src]⟩ := by
  unfold processLine audioVideoStage
  simp only [hg, ha, hv, Bool.false_eq_true, if_false, List.nil_append]

theorem processLine_gallery (base : List Char) (db : List Int → List (List Char))
    (orig : List Char) (ids : List Int) (hg : galleryMatch (normLine orig) = true)
    (hp : parseGalleryIDs (normLine orig) = some ids)
    (ha : audioSubmatch (normLine orig) = none)
    (hv : videoSubmatch (normLine orig) = none) :
    processLine base db orig = ⟨((db ids).map (galleryImg base)).flatten, db ids⟩ := by
  unfold processLine audioVideoStage
  simp only [hg, hp, ha, hv, if_true]

theorem processLine_gallery_err (base : List Char) (db : List Int → List (List Char))
    (orig : List Char)
    (hyt : ytShortPre.isPrefixOf (ytCollapse (goSplitN2 (normLine orig)).1) = false)
    (hg : galleryMatch (normLine orig) = true)
    (hp : parseGalleryIDs (normLine orig) = none) :
    processLine base db orig = ⟨orig, []⟩ := by
  unfold processLine
  simp only [hyt, hg, hp, Bool.false_eq_true, if_false, if_true]

theorem processLine_yt (base : List Char) (db : List Int → List (List Char))
    (orig : List Char)
    (hyt : ytShortPre.isPrefixOf (ytCollapse (goSplitN2 (normLine orig)).1) = true)
    (hg : galleryMatch (normLine orig) = false)
    (ha : audioSubmatch (normLine orig) = none)
    (hv : videoSubmatch (normLine orig) = none) :
    processLine base db orig =
      ⟨ytLineFmt (ytCollapse (goSplitN2 (normLine orig)).1)
        (restOf (goSplitN2 (normLine orig)).2), []⟩ := by
  unfold processLine audioVideoStage
  simp only [hyt, hg, ha, hv, Bool.false_eq_true, if_false, if_true]

theorem goTrimPrefix_of_not_prefixOf (u base : List Char) (h : base.isPrefixOf u = false) :
    goTrimPrefix u base = u := by
  unfold goTrimPrefix
  simp [h]

/-- The source's default base URL (the `WP_BASE_URL` fallback). -/
def base0 : List Char := ("http://localhost:8082").data

/-- A gallery lookup returning no URLs. -/
def db0 : List Int → List (List Char) := fun _ => []

/-- A document with no recognised shortcodes. -/
def plainDoc : List Char := ("# Title\n\nhello world \\[not a shortcode\\]\n").data

/-- The rejoined text after the line passes, before the import insertion. -/
def ppJoined (base : List Char) (db : List Int → List (List Char)) (markdown : List Char) :
    List Char :=
  goJoin ['\n'] (((splitOnChar '\n' markdown).map (processLine base db)).map LineOut.text)

/-- C4: for every markdown input none of whose lines triggers a line-pass
transform (no gallery, audio, video or bare-YouTube-link line),
`PostProcessMarkdownLines` returns the input unchanged except for possibly
prepending the image and/or YouTube import lines, and returns an empty
media-URL list. -/
theorem postProcess_identity_without_shortcodes (base : List Char)
    (db : List Int → List (List Char)) (t : List Char)
    (h : ∀ l ∈ splitOnChar '\n' t, lineInert l = true) :
    PostProcessMarkdownLines base db t =
      ((if goContains imgNeedle t then imgImportPrefix else []) ++
        (if goContains ytNeedle t then ytImportPrefix else []) ++ t, []) := by
  rw [pp_inert base db t h, addImports_eq]

/-- Witness for C4: a concrete shortcode-free document passes through
unchanged with an empty media list. -/
theorem postProcess_identity_without_shortcodes_witness :
    PostProcessMarkdownLines base0 db0 plainDoc = (plainDoc, []) := by
  rw [postProcess_identity_without_shortcodes base0 db0 plainDoc (by decide)]
  decide

/-- C5: after the line passes are rejoined, the YouTube import line is
prepended exactly once if and only if the rejoined text contains
`<YouTube id=`, and the image import line is prepended exactly once if and
only if it contains `<Image`; both keyed purely on substring presence in
that text, not per occurrence. -/
theorem importLines_keyed_on_substring (base : List Char)
    (db : List Int → List (List Char)) (markdown : List Char) :
    (PostProcessMarkdownLines base db markdown).1 =
      (if goContains imgNeedle (ppJoined base db markdown) then imgImportPrefix else []) ++
        (if goContains ytNeedle (ppJoined base db markdown) then ytImportPrefix else []) ++
        ppJoined base db markdown := by
  simp only [PostProcessMarkdownLines, ppJoined]
  exact addImports_eq _

/-- A markdown body that already is a YouTube embed tag. -/
def ytEx : List Char := ("<YouTube id=\"x\" />").data

/-- C2 counterexample: running the post-processor on its own output
prepends the YouTube import line a second time although it is already
present, so re-running is not a no-op beyond non-duplicating import
checks. -/
theorem postProcess_rerun_duplicates_import :
    (PostProcessMarkdownLines base0 db0 ytEx).1 = ytImportPrefix ++ ytEx ∧
    (PostProcessMarkdownLines base0 db0 (ytImportPrefix ++ ytEx)).1 =
      ytImportPrefix ++ (ytImportPrefix ++ ytEx) ∧
    ytImportPrefix ++ (ytImportPrefix ++ ytEx) ≠ ytImportPrefix ++ ytEx := by decide

/-- C2 amended: on its own output (assuming no shortcode markers survive,
i.e. every output line is inert) the post-processor changes nothing beyond
the import-line checks — but those checks are keyed only on embed-tag
substring presence, so they prepend the import lines again. -/
theorem postProcess_rerun_behaviour (base : List Char) (db : List Int → List (List Char))
    (t : List Char)
    (h : ∀ l ∈ splitOnChar '\n' (PostProcessMarkdownLines base db t).1, lineInert l = true) :
    PostProcessMarkdownLines base db (PostProcessMarkdownLines base db t).1 =
      (addImports (PostProcessMarkdownLines base db t).1, []) :=
  pp_inert base db _ h

/-- Witness for C2 (amended) at a concrete document. -/
theorem postProcess_rerun_behaviour_witness :
    PostProcessMarkdownLines base0 db0 (PostProcessMarkdownLines base0 db0 ytEx).1 =
      (addImports (PostProcessMarkdownLines base0 db0 ytEx).1, []) :=
  postProcess_rerun_behaviour base0 db0 ytEx (by decide)

/-- An audio shortcode whose URL is not under the configured base. -/
def audioExtLine : List Char := ("[audio mp3=\"https://other.example/a.mp3\"][/audio]").data

/-- The external URL of `audioExtLine`. -/
def extUrl : List Char := ("https://other.example/a.mp3").data

/-- C3 counterexample: a URL that does not begin with the configured base
is nevertheless appended to the queued media-reference list. -/
theorem nonLocal_url_still_queued :
    (PostProcessMarkdownLines base0 db0 audioExtLine).2 = [extUrl] ∧
    base0.isPrefixOf extUrl = false := by decide

/-- C3 amended: every queued URL is the verbatim matched (or looked-up)
URL, queued with no base-URL condition; a URL that does not begin with the
base is emitted fully qualified (the base strip is the identity on it) yet
still queued.  Stated for the audio, video and gallery branches. -/
theorem queued_urls_unconditional :
    (∀ (base : List Char) (db : List Int → List (List Char)) (orig src : List Char),
        galleryMatch (normLine orig) = false → audioSubmatch (normLine orig) = some src →
        processLine base db orig = ⟨audioEmbed (goTrimPrefix src base), [src]⟩) ∧
    (∀ (base : List Char) (db : List Int → List (List Char)) (orig w ht src : List Char),
        galleryMatch (normLine orig) = false → audioSubmatch (normLine orig) = none →
        videoSubmatch (normLine orig) = some (w, ht, src) →
        processLine base db orig = ⟨videoEmbed w ht (goTrimPrefix src base), [src]⟩) ∧
    (∀ (base : List Char) (db : List Int → List (List Char)) (orig : List Char)
        (ids : List Int),
        galleryMatch (normLine orig) = true → parseGalleryIDs (normLine orig) = some ids →
        audioSubmatch (normLine orig) = none → videoSubmatch (normLine orig) = none →
        processLine base db orig = ⟨((db ids).map (galleryImg base)).flatten, db ids⟩) ∧
    (∀ u base : List Char, base.isPrefixOf u = false → goTrimPrefix u base = u) :=
  ⟨processLine_audio, processLine_video, processLine_gallery, goTrimPrefix_of_not_prefixOf⟩

/-- Witness for C3 (amended): the external audio URL is queued verbatim and
displayed fully qualified. -/
theorem queued_urls_unconditional_witness :
    processLine base0 db0 audioExtLine = ⟨audioEmbed extUrl, [extUrl]⟩ := by
  have h := queued_urls_unconditional.1 base0 db0 audioExtLine extUrl (by decide) (by decide)
  rw [h]
  decide

/-- The spec's bare-YouTube-link example line. -/
def ytCapLine : List Char := ("https://www.youtube.com/watch?v=abc123 caption text").data

/-- What the code actually produces for `ytCapLine` (space before the
caption preserved). -/
def ytCapActual : List Char := ("<YouTube id=\"https://youtu.be/abc123\" /> caption text").data

/-- What the claim says `ytCapLine` becomes (no space before the caption). -/
def ytCapClaimed : List Char := ("<YouTube id=\"https://youtu.be/abc123\" />caption text").data

/-- C6 counterexample: the rewritten line keeps the separating space
(`rest = " " + parts[1]`), so the claimed `…/>caption text` is not what the
code produces. -/
theorem ytLine_keeps_separating_space :
    processLine base0 db0 ytCapLine = ⟨ytCapActual, []⟩ ∧ ytCapActual ≠ ytCapClaimed := by
  decide

/-- C6 amended: a line whose first space-delimited token collapses to a
`https://youtu.be` link (and which triggers no gallery/audio/video branch)
is replaced by the YouTube embed tag carrying the collapsed URL, followed by
the trailing text of the line including its separating space; the example
line becomes `<YouTube id="https://youtu.be/abc123" /> caption text`. -/
theorem ytLine_general (base : List Char) (db : List Int → List (List Char))
    (orig : List Char)
    (hyt : ytShortPre.isPrefixOf (ytCollapse (goSplitN2 (normLine orig)).1) = true)
    (hg : galleryMatch (normLine orig) = false)
    (ha : audioSubmatch (normLine orig) = none)
    (hv : videoSubmatch (normLine orig) = none) :
    processLine base db orig =
      ⟨ytLineFmt (ytCollapse (goSplitN2 (normLine orig)).1)
        (restOf (goSplitN2 (normLine orig)).2), []⟩ :=
  processLine_yt base db orig hyt hg ha hv

/-- Witness for C6 (amended) at the example line. -/
theorem ytLine_general_witness :
    processLine base0 db0 ytCapLine = ⟨ytCapActual, []⟩ := by
  rw [ytLine_general base0 db0 ytCapLine (by decide) (by decide) (by decide) (by decide)]
  decide

/-- The gallery example of the spec. -/
def galleryOkLine : List Char := ("[gallery ids=\"3,5,7\"]").data

/-- A gallery marker with no `ids` attribute. -/
def galleryNoIdsLine : List Char := ("[gallery columns=\"2\" size=\"full\"]").data

/-- A gallery marker whose id list has a malformed integer. -/
def galleryBadIntLine : List Char := ("[gallery ids=\"3,5,x\"]").data

/-- A line with a malformed gallery marker followed by a well-formed audio
shortcode. -/
def galleryThenAudioLine : List Char :=
  ("[gallery ids=\"x\"][audio mp3=\"https://e.com/a.mp3\"][/audio]").data

/-- C8 counterexample: when the gallery id list is malformed the loop
`continue`s, so the audio pass does NOT run on that line — the line is
returned untouched even though it contains a matching audio shortcode,
contradicting "leave that line for the remaining passes". -/
theorem gallery_error_skips_remaining_passes :
    PostProcessMarkdownLines base0 db0 galleryThenAudioLine = (galleryThenAudioLine, []) ∧
    galleryMatch (normLine galleryThenAudioLine) = true ∧
    parseGalleryIDs (normLine galleryThenAudioLine) = none ∧
    (audioSubmatch (normLine galleryThenAudioLine)).isSome = true := by decide

/-- C8 amended: `parseGalleryIDs` returns `[3,5,7]` for the example, an
error for a marker lacking `ids="…"`, and an error when an element fails
integer parsing; that error makes the post-processor leave the line
unchanged and skip the remaining line passes for that line (the rest of the
document is processed normally, never aborted). -/
theorem parseGalleryIDs_behaviour :
    parseGalleryIDs galleryOkLine = some [3, 5, 7] ∧
    parseGalleryIDs galleryNoIdsLine = none ∧
    parseGalleryIDs galleryBadIntLine = none ∧
    (∀ (base : List Char) (db : List Int → List (List Char)) (orig : List Char),
      ytShortPre.isPrefixOf (ytCollapse (goSplitN2 (normLine orig)).1) = false →
      galleryMatch (normLine orig) = true → parseGalleryIDs (normLine orig) = none →
      processLine base db orig = ⟨orig, []⟩) :=
  ⟨by decide, by decide, by decide, processLine_gallery_err⟩

/-- Witness for C8 (amended): the malformed-id line is left unchanged. -/
theorem parseGalleryIDs_behaviour_witness :
    processLine base0 db0 galleryThenAudioLine = ⟨galleryThenAudioLine, []⟩ :=
  parseGalleryIDs_behaviour.2.2.2 base0 db0 galleryThenAudioLine
    (by decide) (by decide) (by decide)

theorem imgRule_strip (base : List Char) (node : HNode) (src alt : List Char)
    (hlen : node.elemChildren.length = 1)
    (htag : (node.elemChildren.headD (.text [])).tagOf = ("img").data)
    (hsrc : (node.elemChildren.headD (.text [])).attr (("src").data) = some src)
    (halt : (node.elemChildren.headD (.text [])).attr (("alt").data) = some alt) :
    imgRule base node =
      some ((("\n\n<img src=\"").data) ++ goTrimPrefix src base ++ (("\" alt=\"").data) ++ alt
        ++ (("\" />\n\n").data), [src]) := by
  unfold imgRule
  simp only [hlen, htag, hsrc, halt, and_self, if_true, Option.getD_some]

/-- The figure example of the spec: a figure whose only child is an anchor
with text `Caption` linking to an image under the configured base. -/
def exBase : List Char := ("https://example.com").data

/-- The absolute image href of the figure example. -/
def exHref : List Char := ("https://example.com/wp-content/img.jpg").data

/-- The example figure with a captioned anchor. -/
def figCap : HNode :=
  .elem (("figure").data) []
    [.elem (("a").data) [((("href").data), exHref)] [.text (("Caption").data)]]

/-- The example figure with an empty-text anchor. -/
def figNoCap : HNode :=
  .elem (("figure").data) [] [.elem (("a").data) [((("href").data), exHref)] []]

/-- C7 counterexample: the emitted display path is `//wp-content/img.jpg`
(the template prepends a literal `/` to the base-stripped path), not the
claimed `/wp-content/img.jpg`. -/
theorem figure_example_display_path :
    figureRule exBase figCap =
      some ((("\n\n<img src=\"//wp-content/img.jpg\" alt=\"Caption\" />\n\n").data), [exHref]) ∧
    (("\n\n<img src=\"//wp-content/img.jpg\" alt=\"Caption\" />\n\n").data ≠
      ("\n\n<img src=\"/wp-content/img.jpg\" alt=\"Caption\" />\n\n").data) := by decide

/-- C7 amended: converting the example figure emits an image embed with alt
`Caption` (alt `Image` for the empty-text anchor) and queues the absolute
href, but the displayed path is the base-stripped path with a further
literal `/` prepended, i.e. `//wp-content/img.jpg`. -/
theorem figure_example_behaviour :
    figureRule exBase figCap =
      some (figImgTmpl (goTrimPrefix exHref exBase) (("Caption").data), [exHref]) ∧
    figureRule exBase figNoCap =
      some (figImgTmpl (goTrimPrefix exHref exBase) (("Image").data), [exHref]) ∧
    goTrimPrefix exHref exBase = ("/wp-content/img.jpg").data := by decide

/-- C9 counterexample: for the figure rule the rendered display path is not
the queued absolute URL with the base stripped — the emitted text carries
`/` ++ stripped path instead. -/
theorem figure_breaks_display_queue_correspondence :
    figureRule exBase figCap =
      some (figImgTmpl (goTrimPrefix exHref exBase) (("Caption").data), [exHref]) ∧
    figImgTmpl (goTrimPrefix exHref exBase) (("Caption").data) ≠
      ("\n\n<img src=\"").data ++ goTrimPrefix exHref exBase ++
        ("\" alt=\"Caption\" />\n\n").data := by decide

/-- C9 amended: the same-index correspondence — the k-th rendered display
path equals the k-th queued absolute URL with the configured base stripped —
holds for the gallery branch (one `<img>` per queued URL, in order), for the
inline single-image rule, and for the audio/video shortcode branches; the
converter's figure rules instead render `/` ++ stripped path. -/
theorem display_path_matches_queued :
    (∀ (base : List Char) (db : List Int → List (List Char)) (orig : List Char)
        (ids : List Int),
        galleryMatch (normLine orig) = true → parseGalleryIDs (normLine orig) = some ids →
        audioSubmatch (normLine orig) = none → videoSubmatch (normLine orig) = none →
        (processLine base db orig).media = db ids ∧
        (processLine base db orig).text =
          (((processLine base db orig).media).map (galleryImg base)).flatten ∧
        ∀ u : List Char, galleryImg base u =
          ("<img src=\"").data ++ goTrimPrefix u base ++ ("\"/>\n\n").data) ∧
    (∀ (base : List Char) (node : HNode) (src alt : List Char),
        node.elemChildren.length = 1 →
        (node.elemChildren.headD (.text [])).tagOf = ("img").data →
        (node.elemChildren.headD (.text [])).attr (("src").data) = some src →
        (node.elemChildren.headD (.text [])).attr (("alt").data) = some alt →
        imgRule base node =
          some ((("\n\n<img src=\"").data) ++ goTrimPrefix src base ++ (("\" alt=\"").data)
            ++ alt ++ (("\" />\n\n").data), [src])) ∧
    (∀ (base : List Char) (db : List Int → List (List Char)) (orig src : List Char),
        galleryMatch (normLine orig) = false → audioSubmatch (normLine orig) = some src →
        (processLine base db orig).media = [src] ∧
        (processLine base db orig).text = audioEmbed (goTrimPrefix src base)) ∧
    (∀ (base : List Char) (db : List Int → List (List Char)) (orig w ht src : List Char),
        galleryMatch (normLine orig) = false → audioSubmatch (normLine orig) = none →
        videoSubmatch (normLine orig) = some (w, ht, src) →
        (processLine base db orig).media = [src] ∧
        (processLine base db orig).text = videoEmbed w ht (goTrimPrefix src base)) := by
  refine ⟨?_, imgRule_strip, ?_, ?_⟩
  · intro base db orig ids hg hp ha hv
    rw [processLine_gallery base db orig ids hg hp ha hv]
    exact ⟨rfl, rfl, fun u => rfl⟩
  · intro base db orig src hg ha
    rw [processLine_audio base db orig src hg ha]
    exact ⟨rfl, rfl⟩
  · intro base db orig w ht src hg ha hv
    rw [processLine_video base db orig w ht src hg ha hv]
    exact ⟨rfl, rfl⟩

/-- A lookup used by the C9 witness: two URLs, one local, one external. -/
def db1 : List Int → List (List Char) :=
  fun ids =>
    if ids = [3, 5, 7] then
      [("http://localhost:8082/wp-content/a.png").data, ("https://cdn.example/b.png").data]
    else []

/-- Witness for C9 (amended): the gallery branch renders, in order, one
image per queued URL, each displayed base-stripped. -/
theorem display_path_matches_queued_witness :
    (processLine base0 db1 galleryOkLine).media =
      [("http://localhost:8082/wp-content/a.png").data, ("https://cdn.example/b.png").data] ∧
    (processLine base0 db1 galleryOkLine).text =
      (((processLine base0 db1 galleryOkLine).media).map (galleryImg base0)).flatten := by
  have h := display_path_matches_queued.1 base0 db1 galleryOkLine [3, 5, 7]
    (by decide) (by decide) (by decide) (by decide)
  exact ⟨h.1, h.2.1⟩

/-- A shortcode span whose URL yields no extractable video id. -/
def ytBadInput : List Char := ("\\[youtube\\]banana\\[/youtube\\]").data

/-- The spec's positive example span. -/
def ytGoodInput : List Char := ("\\[youtube\\]https://youtu.be/xyz789?t=5\\[/youtube\\]").data

/-- An unterminated start marker. -/
def ytUntermInput : List Char := ("pre \\[youtube\\]https://youtu.be/x").data

/-- C1 (code bug): on a span whose URL yields no extractable video id the
loop splices the unchanged span back and restarts the search from the
beginning of the text, so it finds the same span again and never
terminates — for every fuel the loop is still running.  A span with an
extractable id is replaced by a single embed, and an unterminated start
marker leaves the text completely unmodified. -/
theorem processYouTubeShortcodes_diverges :
    (∀ n, processYouTubeShortcodesF n ytBadInput = none) ∧
    processYouTubeShortcodesF 2 ytGoodInput =
      some (("\n\n<YouTube id=\"https://youtu.be/xyz789\" />\n\n").data) ∧
    processYouTubeShortcodesF 1 ytUntermInput = some ytUntermInput := by
  refine ⟨?_, by decide, by decide⟩
  intro n
  induction n with
  | zero => rfl
  | succ k ih =>
    have hstep : processYouTubeShortcodesF (k + 1) ytBadInput =
        processYouTubeShortcodesF k ytBadInput := rfl
    rw [hstep, ih]

theorem hexDigit_ne_nl (n : Nat) : hexDigit n ≠ '\n' := by
  by_cases h : n < 16
  · interval_cases n <;> decide
  · unfold hexDigit
    rw [List.getD_eq_default]
    · decide
    · have hl : lowerhex.length = 16 := by decide
      omega

theorem nl_not_mem_goQuoteChar (c : Char) : '\n' ∉ goQuoteChar c := by
  by_cases hc : c = '\n'
  · subst hc; decide
  unfold goQuoteChar
  by_cases h1 : c = '"'
  · rw [if_pos h1]; decide
  rw [if_neg h1]
  by_cases h2 : c = '\\'
  · rw [if_pos h2]; decide
  rw [if_neg h2]
  by_cases h3 : 0x20 ≤ c.toNat ∧ c.toNat ≤ 0x7E
  · rw [if_pos h3]
    exact fun hm => hc (List.mem_singleton.mp hm).symm
  rw [if_neg h3, if_neg hc]
  by_cases h5 : c = '\t'
  · rw [if_pos h5]; decide
  rw [if_neg h5]
  by_cases h6 : c = '\r'
  · rw [if_pos h6]; decide
  rw [if_neg h6]
  by_cases h7 : c.toNat = 7
  · rw [if_pos h7]; decide
  rw [if_neg h7]
  by_cases h8 : c.toNat = 8
  · rw [if_pos h8]; decide
  rw [if_neg h8]
  by_cases h9 : c.toNat = 11
  · rw [if_pos h9]; decide
  rw [if_neg h9]
  by_cases h10 : c.toNat = 12
  · rw [if_pos h10]; decide
  rw [if_neg h10]
  by_cases h11 : c.toNat < 0x80
  · rw [if_pos h11]
    intro hm
    simp only [List.mem_cons, List.not_mem_nil, or_false] at hm
    rcases hm with h | h | h | h
    · exact absurd h (by decide)
    · exact absurd h (by decide)
    · exact absurd h.symm (hexDigit_ne_nl _)
    · exact absurd h.symm (hexDigit_ne_nl _)
  · rw [if_neg h11]
    exact fun hm => hc (List.mem_singleton.mp hm).symm

theorem nl_not_mem_goQuote (s : List Char) : '\n' ∉ goQuote s := by
  unfold goQuote
  intro hmem
  rcases List.mem_cons.mp hmem with h | h
  · exact absurd h (by decide)
  rcases List.mem_append.mp h with h | h
  · rcases List.mem_flatten.mp h with ⟨l, hl, hx⟩
    rcases List.mem_map.mp hl with ⟨c, _, rfl⟩
    exact nl_not_mem_goQuoteChar c hx
  · exact absurd h (by decide)

theorem nl_not_mem_goJoin (sep : List Char) (parts : List (List Char))
    (hsep : '\n' ∉ sep) (hp : ∀ p ∈ parts, '\n' ∉ p) : '\n' ∉ goJoin sep parts := by
  induction parts with
  | nil => simp [goJoin]
  | cons x r ih =>
    cases r with
    | nil => exact fun hm => hp x (List.mem_cons_self x []) hm
    | cons y r' =>
      have hx : '\n' ∉ x := hp x (by simp)
      have hrest : '\n' ∉ goJoin sep (y :: r') :=
        ih fun p hpm => hp p (List.mem_cons_of_mem x hpm)
      simp only [goJoin]
      intro hm
      rcases List.mem_append.mp hm with hm | hm
      · rcases List.mem_append.mp hm with hm | hm
        · exact hx hm
        · exact hsep hm
      · exact hrest hm

theorem nl_not_mem_tagsJSON (tags : List (List Char)) : '\n' ∉ tagsJSONOf tags := by
  unfold tagsJSONOf
  split
  · intro hm
    rcases List.mem_append.mp hm with hm | hm
    · rcases List.mem_cons.mp hm with h | h
      · exact absurd h (by decide)
      · exact nl_not_mem_goJoin _ _ (by decide)
          (fun p hpm => by
            rcases List.mem_map.mp hpm with ⟨t, _, rfl⟩
            exact nl_not_mem_goQuote t) h
    · exact absurd hm (by decide)
  · decide

theorem nl_not_mem_append (a b : List Char) (ha : '\n' ∉ a) (hb : '\n' ∉ b) :
    '\n' ∉ a ++ b := fun hm => (List.mem_append.mp hm).elim ha hb

theorem splitOnChar_append_sep (c : Char) (a b : List Char) (h : c ∉ a) :
    splitOnChar c (a ++ c :: b) = a :: splitOnChar c b := by
  induction a with
  | nil =>
    simp only [List.nil_append, splitOnChar]
    cases hsp : splitOnChar c b with
    | nil => exact absurd hsp (splitOnChar_ne_nil c b)
    | cons hd r => simp
  | cons x t ih =>
    have hx : x ≠ c := fun he => h (he ▸ List.mem_cons_self x t)
    simp only [List.cons_append, splitOnChar, List.append_eq]
    rw [ih fun hm => h (List.mem_cons_of_mem x hm)]
    simp [hx]

/-- C10: the frontmatter consists, in this fixed order, of the lines `---`,
`title:`, an always-empty `excerpt: ""`, `publishDate:` (the quoted
`YYYY-MM-DD` date), an `updatedDate:` line present iff the updated
timestamp is non-zero, `isFeatured: false`, `tags:` (a double-quoted
JSON-style list, `[]` when empty), a `featuredImage:` line present iff the
featured image is set, `seo: {}` and the closing `---`; omitted optional
fields leave no blank placeholder lines (the trailing `""` entries are the
final `\n\n` of the block). -/
theorem frontmatter_layout (post : Post) (pd ud : GoTime) :
    splitOnChar '\n' (GenerateFrontmatter post pd ud) =
      [("---").data, ("title: ").data ++ goQuote post.title, ("excerpt: \"\"").data,
        ("publishDate: ").data ++ goQuote (formatISO pd)] ++
      (if ud.isZero then [] else [("updatedDate: ").data ++ goQuote (formatISO ud)]) ++
      [("isFeatured: false").data, ("tags: ").data ++ tagsJSONOf post.tags] ++
      (if post.featuredImage = [] then []
        else [("featuredImage: ").data ++ goQuote post.featuredImage]) ++
      [("seo: {}").data, ("---").data, [], []] := by
  by_cases hu : ud.isZero = true <;> by_cases hf : post.featuredImage = []
  · have hGF : GenerateFrontmatter post pd ud =
        ("---").data ++ '\n' :: ((("title: ").data ++ goQuote post.title) ++ '\n' ::
          (("excerpt: \"\"").data ++ '\n' ::
            ((("publishDate: ").data ++ goQuote (formatISO pd)) ++ '\n' ::
              (("isFeatured: false").data ++ '\n' ::
                ((("tags: ").data ++ tagsJSONOf post.tags) ++ '\n' ::
                  (("seo: {}").data ++ '\n' :: (("---").data ++ '\n' :: ['\n']))))))) := by
      simp [GenerateFrontmatter, hu, hf, List.append_assoc]
    rw [hGF,
      splitOnChar_append_sep '\n' (("---").data) _ (by decide),
      splitOnChar_append_sep '\n' _ _ (nl_not_mem_append _ _ (by decide) (nl_not_mem_goQuote _)),
      splitOnChar_append_sep '\n' (("excerpt: \"\"").data) _ (by decide),
      splitOnChar_append_sep '\n' _ _ (nl_not_mem_append _ _ (by decide) (nl_not_mem_goQuote _)),
      splitOnChar_append_sep '\n' (("isFeatured: false").data) _ (by decide),
      splitOnChar_append_sep '\n' _ _ (nl_not_mem_append _ _ (by decide) (nl_not_mem_tagsJSON _)),
      splitOnChar_append_sep '\n' (("seo: {}").data) _ (by decide),
      splitOnChar_append_sep '\n' (("---").data) _ (by decide)]
    simp [splitOnChar, hu, hf]
  · have hGF : GenerateFrontmatter post pd ud =
        ("---").data ++ '\n' :: ((("title: ").data ++ goQuote post.title) ++ '\n' ::
          (("excerpt: \"\"").data ++ '\n' ::
            ((("publishDate: ").data ++ goQuote (formatISO pd)) ++ '\n' ::
              (("isFeatured: false").data ++ '\n' ::
                ((("tags: ").data ++ tagsJSONOf post.tags) ++ '\n' ::
                  ((("featuredImage: ").data ++ goQuote post.featuredImage) ++ '\n' ::
                    (("seo: {}").data ++ '\n' :: (("---").data ++ '\n' :: ['\n'])))))))) := by
      simp [GenerateFrontmatter, hu, hf, List.append_assoc]
    rw [hGF,
      splitOnChar_append_sep '\n' (("---").data) _ (by decide),
      splitOnChar_append_sep '\n' _ _ (nl_not_mem_append _ _ (by decide) (nl_not_mem_goQuote _)),
      splitOnChar_append_sep '\n' (("excerpt: \"\"").data) _ (by decide),
      splitOnChar_append_sep '\n' _ _ (nl_not_mem_append _ _ (by decide) (nl_not_mem_goQuote _)),
      splitOnChar_append_sep '\n' (("isFeatured: false").data) _ (by decide),
      splitOnChar_append_sep '\n' _ _ (nl_not_mem_append _ _ (by decide) (nl_not_mem_tagsJSON _)),
      splitOnChar_append_sep '\n' _ _ (nl_not_mem_append _ _ (by decide) (nl_not_mem_goQuote _)),
      splitOnChar_append_sep '\n' (("seo: {}").data) _ (by decide),
      splitOnChar_append_sep '\n' (("---").data) _ (by decide)]
    simp [splitOnChar, hu, hf]
  · have hGF : GenerateFrontmatter post pd ud =
        ("---").data ++ '\n' :: ((("title: ").data ++ goQuote post.title) ++ '\n' ::
          (("excerpt: \"\"").data ++ '\n' ::
            ((("publishDate: ").data ++ goQuote (formatISO pd)) ++ '\n' ::
              ((("updatedDate: ").data ++ goQuote (formatISO ud)) ++ '\n' ::
                (("isFeatured: false").data ++ '\n' ::
                  ((("tags: ").data ++ tagsJSONOf post.tags) ++ '\n' ::
                    (("seo: {}").data ++ '\n' :: (("---").data ++ '\n' :: ['\n'])))))))) := by
      simp [GenerateFrontmatter, hu, hf, List.append_assoc]
    rw [hGF,
      splitOnChar_append_sep '\n' (("---").data) _ (by decide),
      splitOnChar_append_sep '\n' _ _ (nl_not_mem_append _ _ (by decide) (nl_not_mem_goQuote _)),
      splitOnChar_append_sep '\n' (("excerpt: \"\"").data) _ (by decide),
      splitOnChar_append_sep '\n' _ _ (nl_not_mem_append _ _ (by decide) (nl_not_mem_goQuote _)),
      splitOnChar_append_sep '\n' _ _ (nl_not_mem_append _ _ (by decide) (nl_not_mem_goQuote _)),
      splitOnChar_append_sep '\n' (("isFeatured: false").data) _ (by decide),
      splitOnChar_append_sep '\n' _ _ (nl_not_mem_append _ _ (by decide) (nl_not_mem_tagsJSON _)),
      splitOnChar_append_sep '\n' (("seo: {}").data) _ (by decide),
      splitOnChar_append_sep '\n' (("---").data) _ (by decide)]
    simp [splitOnChar, hu, hf]
  · have hGF : GenerateFrontmatter post pd ud =
        ("---").data ++ '\n' :: ((("title: ").data ++ goQuote post.title) ++ '\n' ::
          (("excerpt: \"\"").data ++ '\n' ::
            ((("publishDate: ").data ++ goQuote (formatISO pd)) ++ '\n' ::
              ((("updatedDate: ").data ++ goQuote (formatISO ud)) ++ '\n' ::
                (("isFeatured: false").data ++ '\n' ::
                  ((("tags: ").data ++ tagsJSONOf post.tags) ++ '\n' ::
                    ((("featuredImage: ").data ++ goQuote post.featuredImage) ++ '\n' ::
                      (("seo: {}").data ++ '\n' ::
                        (("---").data ++ '\n' :: ['\n']))))))))) := by
      simp [GenerateFrontmatter, hu, hf, List.append_assoc]
    rw [hGF,
      splitOnChar_append_sep '\n' (("---").data) _ (by decide),
      splitOnChar_append_sep '\n' _ _ (nl_not_mem_append _ _ (by decide) (nl_not_mem_goQuote _)),
      splitOnChar_append_sep '\n' (("excerpt: \"\"").data) _ (by decide),
      splitOnChar_append_sep '\n' _ _ (nl_not_mem_append _ _ (by decide) (nl_not_mem_goQuote _)),
      splitOnChar_append_sep '\n' _ _ (nl_not_mem_append _ _ (by decide) (nl_not_mem_goQuote _)),
      splitOnChar_append_sep '\n' (("isFeatured: false").data) _ (by decide),
      splitOnChar_append_sep '\n' _ _ (nl_not_mem_append _ _ (by decide) (nl_not_mem_tagsJSON _)),
      splitOnChar_append_sep '\n' _ _ (nl_not_mem_append _ _ (by decide) (nl_not_mem_goQuote _)),
      splitOnChar_append_sep '\n' (("seo: {}").data) _ (by decide),
      splitOnChar_append_sep '\n' (("---").data) _ (by decide)]
    simp [splitOnChar, hu, hf]

end WpToMdx
